import Mathlib

/-!
# Verification of the Compass photo puller core (`src/compass_photo/core.py`)

This file gives a shallow embedding of the decision logic of the photo
synchronisation engine in `compass_photo/core.py` and proves the frozen
claims about it.

Modelling conventions:
* Python strings are Lean `String`s; character-level work happens on
  `String.data : List Char`.  Python's `\d` and `str.isalnum` are
  Unicode-aware; here they are modelled over their ASCII meaning
  (`Char.isDigit`, `Char.isAlphanum`), which is what the service's URL
  tokens and display codes use.  `str.strip()` is modelled over the six
  ASCII whitespace characters Python strips.
* The cache directory is a `List String` of file names in filesystem
  enumeration order; `glob.glob(dir ++ "/{code}_*.jpg")` is the filter of
  that list by the literal pattern (display codes sanitised by the engine
  contain no glob metacharacters, so the pattern's only wildcard is `*`).
* Network effects are an oracle `fetchOk : String → Bool` telling, for
  each photo-version token, whether fetching its photo succeeds or raises;
  timing (sleeps, jitter, backoff delays) is not modelled.
* `_request_with_retry` is modelled on the list of per-attempt outcomes
  the environment would produce: the list's length is `max_retries` and
  its `i`-th entry is what attempt `i` would yield.
-/

namespace CompassPhoto

/-- The six characters Python's `str.strip()` removes (ASCII fragment). -/
def isPySpace (c : Char) : Bool :=
  c == ' ' || c == '\t' || c == '\n' || c == '\r' || c.toNat == 11 || c.toNat == 12

/-- `str.strip()` on a character list: drop leading and trailing whitespace. -/
def pyStripL (l : List Char) : List Char :=
  ((l.dropWhile isPySpace).reverse.dropWhile isPySpace).reverse

/-- `str.strip()` on strings. -/
def pyStrip (s : String) : String := ⟨pyStripL s.data⟩

/-- Does `s` have the exact shape of the group `\d{10}[AP]M` of the
regex `_(\d{10}[AP]M)` in `extract_timestamp_from_pv`: ten digits, then
`A` or `P`, then `M`? -/
def isTsBody (s : List Char) : Bool :=
  s.length == 12 && (s.take 10).all Char.isDigit &&
    (match s.drop 10 with
     | [m, c] => (m == 'A' || m == 'P') && c == 'M'
     | _ => false)

/-- Does `s` have the exact shape of a full match of `_(\d{10}[AP]M)`:
an underscore followed by a timestamp body? -/
def isTsShape : List Char → Bool
  | c :: body => c == '_' && isTsBody body
  | [] => false

/-- Try to match the regex `_(\d{10}[AP]M)` at the start of `l`,
returning the captured group. -/
def tsAt : List Char → Option (List Char)
  | c :: rest =>
    if c = '_' ∧ isTsBody (rest.take 12) then some (rest.take 12) else none
  | [] => none

/-- `re.search` for `_(\d{10}[AP]M)`: scan start positions left to right
and return the first captured group (leftmost match). -/
def searchTs : List Char → Option (List Char)
  | [] => none
  | c :: rest =>
    match tsAt (c :: rest) with
    | some t => some t
    | none => searchTs rest

/-- `CompassPhoto.extract_timestamp_from_pv` (core.py lines 40-46):
leftmost match of `_(\d{10}[AP]M)` in the photo-version token, returning
the captured timestamp, or `none` when the token is empty or has no
embedded timestamp. -/
def extract_timestamp_from_pv (pv : String) : Option String :=
  (searchTs pv.data).map fun l => ⟨l⟩

/-- Substring containment, Python's `needle in hay`. -/
def containsSub (needle : List Char) : List Char → Bool
  | [] => needle.isEmpty
  | c :: rest => needle.isPrefixOf (c :: rest) || containsSub needle rest

/-- Character-level glob test for the pattern `{code}_*.jpg`: `f`
decomposes as `code ++ "_" ++ mid ++ ".jpg"` for some `mid`. -/
def matchesPatternL (code f : List Char) : Bool :=
  (code ++ ['_']).isPrefixOf f &&
    ['.', 'j', 'p', 'g'].isSuffixOf f &&
    decide (code.length + 5 ≤ f.length)

/-- Does file name `f` match the glob pattern `{displayCode}_*.jpg`
(core.py line 52)? -/
def matchesPattern (displayCode f : String) : Bool :=
  matchesPatternL displayCode.data f.data

/-- `CompassPhoto.should_update_photo` (core.py lines 48-60).  The cache
directory is given as the list of file names it contains, in filesystem
enumeration order.  Returns `(should_update, existing_file)` exactly as
the source: `(true, none)` when the token has no timestamp or no cached
file matches the glob; `(false, f)` for the first matching file whose
name contains the timestamp; otherwise `(true, first matching file)`. -/
def should_update_photo (files : List String) (displayCode pv : String) :
    Bool × Option String :=
  match extract_timestamp_from_pv pv with
  | none => (true, none)
  | some ts =>
    let existing := files.filter fun f => matchesPattern displayCode f
    if existing.isEmpty then (true, none)
    else
      match existing.find? fun f => containsSub ts.data f.data with
      | some f => (false, some f)
      | none => (true, existing.head?)

/-- The `safe_name` sanitisation of a display code (core.py line 332):
keep alphanumerics, space, dash and underscore, then strip. -/
def sanitize (code : String) : String :=
  ⟨pyStripL (code.data.filter fun c => c.isAlphanum || c == ' ' || c == '-' || c == '_')⟩

/-- A directory entry as materialised by `get_staff_photos` /
`get_student_photos`: name, display code, photo-version token. -/
structure Person where
  name : String
  displayCode : String
  pv : String
deriving DecidableEq, Repr

/-- The on-disk file name built in `download_photos` (core.py lines
332-335): `{safe_name}_{pv[:8]}_{timestamp or "unknown"}.jpg`. -/
def filenameFor (p : Person) : String :=
  sanitize p.displayCode ++ "_" ++ String.mk (p.pv.data.take 8) ++ "_" ++
    ((extract_timestamp_from_pv p.pv).getD "unknown") ++ ".jpg"

/-- The action `download_photos` records for one person: exactly one of
`skipped`, `downloaded`, `updated`, `failed` per loop iteration. -/
inductive Action where
  | skipped
  | downloaded
  | updated
  | failed
deriving DecidableEq, Repr

/-- Result of one iteration of the `download_photos` loop: the cache
directory afterwards, the action recorded, and whether a photo-download
network call (`_fetch_photo_with_retry`) was issued. -/
structure StepResult where
  files : List String
  action : Action
  fetched : Bool
deriving DecidableEq, Repr

/-- Writing `open(filepath, 'wb')` into the directory listing: an
existing name is overwritten in place, a new name is appended at the end
of the enumeration order. -/
def writeFile (fname : String) (l : List String) : List String :=
  if fname ∈ l then l else l ++ [fname]

/-- One iteration of the `download_photos` loop (core.py lines 329-362)
for person `p` against cache state `files`.  `fetchOk pv` tells whether
the photo download for token `pv` succeeds; a failed fetch is the
exception caught by the per-person handler.  Mirrors the source order:
the decision is computed, then on `Replace` the existing file is removed
(`os.remove`) *before* the fetch, then the fetch, then the write. -/
def processPerson (fetchOk : String → Bool) (files : List String) (p : Person) :
    StepResult :=
  let fname := filenameFor p
  let d := should_update_photo files (sanitize p.displayCode) p.pv
  if !d.1 then
    { files := files, action := .skipped, fetched := false }
  else
    let files1 := match d.2 with
      | some ex => files.erase ex
      | none => files
    if fetchOk p.pv then
      { files := writeFile fname files1
        action := if d.2.isSome then .updated else .downloaded
        fetched := true }
    else
      { files := files1, action := .failed, fetched := true }

/-- The counters returned by `download_photos` (core.py lines 370-376). -/
structure Stats where
  total_processed : Nat
  downloaded : Nat
  updated : Nat
  skipped : Nat
  failed : Nat
deriving DecidableEq, Repr

/-- Record one person's action in the counters. -/
def bump (a : Action) (s : Stats) : Stats :=
  match a with
  | .skipped => { s with total_processed := s.total_processed + 1, skipped := s.skipped + 1 }
  | .downloaded => { s with total_processed := s.total_processed + 1, downloaded := s.downloaded + 1 }
  | .updated => { s with total_processed := s.total_processed + 1, updated := s.updated + 1 }
  | .failed => { s with total_processed := s.total_processed + 1, failed := s.failed + 1 }

/-- Result of a whole `download_photos` run: final cache state, counters,
and the number of photo-download network calls issued. -/
structure RunResult where
  files : List String
  stats : Stats
  calls : Nat
deriving DecidableEq, Repr

/-- The `download_photos` loop over a batch of people (core.py lines
329-362), threading the cache state. -/
def runBatch (fetchOk : String → Bool) (files : List String) :
    List Person → RunResult
  | [] => { files := files, stats := ⟨0, 0, 0, 0, 0⟩, calls := 0 }
  | p :: rest =>
    let r := processPerson fetchOk files p
    let t := runBatch fetchOk r.files rest
    { files := t.files, stats := bump r.action t.stats
      calls := t.calls + (if r.fetched then 1 else 0) }

/-- `photos_to_download = people_with_photos[:limit] if limit else
people_with_photos` (core.py line 326); note Python treats `limit=0` as
falsy, so `0` means no truncation. -/
def applyLimit (limit : Option Nat) (people : List Person) : List Person :=
  match limit with
  | none => people
  | some n => if n = 0 then people else people.take n

/-- `CompassPhoto.download_photos` (core.py lines 320-376), modelled on
its decision logic: the cache directory as a file-name list, the network
as a success oracle over tokens. -/
def download_photos (fetchOk : String → Bool) (files : List String)
    (people : List Person) (limit : Option Nat) : RunResult :=
  runBatch fetchOk files (applyLimit limit people)

/-- The stats dictionary built by `_process_single_photo` (core.py lines
638-660): one person, downloaded on success, failed on exception. -/
def process_single_photo_stats (fetchSucceeds : Bool) : Stats :=
  if fetchSucceeds then ⟨1, 1, 0, 0, 0⟩ else ⟨1, 0, 0, 0, 1⟩

/-! ## The retry transport (`_request_with_retry`, `_fetch_photo_with_retry`) -/

/-- Outcome of one HTTP attempt, as seen through
`response.raise_for_status()`: success, an `HTTPError` carrying a status
code, a `Timeout`, or a `ConnectionError`. -/
inductive Resp where
  | ok
  | httpErr (status : Nat)
  | timeout
  | connErr
deriving DecidableEq, Repr

/-- Result of a retry loop: a response returned after `attempts`
requests, an exception raised after `attempts` requests, or the Python
fall-through `return None` (only reachable with `max_retries = 0`). -/
inductive ReqResult where
  | ok (attempts : Nat)
  | raised (e : Resp) (attempts : Nat)
  | noneFallthrough
deriving DecidableEq, Repr

/-- The loop body of `_request_with_retry` (core.py lines 80-104) over
the remaining per-attempt outcomes, with `k` attempts already made.  An
`HTTPError` is retried only when attempts remain and its status is 403
or 429; timeouts and connection errors are retried whenever attempts
remain; anything else re-raises at once. -/
def reqRunAux : List Resp → Nat → ReqResult
  | [], _ => .noneFallthrough
  | r :: rest, k =>
    match r with
    | .ok => .ok (k + 1)
    | .httpErr s =>
      if (s = 403 ∨ s = 429) ∧ rest ≠ [] then reqRunAux rest (k + 1)
      else .raised (.httpErr s) (k + 1)
    | .timeout =>
      if rest ≠ [] then reqRunAux rest (k + 1) else .raised .timeout (k + 1)
    | .connErr =>
      if rest ≠ [] then reqRunAux rest (k + 1) else .raised .connErr (k + 1)

/-- `CompassPhoto._request_with_retry` (core.py lines 72-106) run against
the list of outcomes the environment yields per attempt; the list length
is `max_retries`. -/
def requestWithRetry (attempts : List Resp) : ReqResult :=
  reqRunAux attempts 0

/-- The loop body of `_fetch_photo_with_retry` (core.py lines 112-123):
every `requests.exceptions.RequestException` — HTTP errors of *any*
status included — is retried while attempts remain. -/
def fetchRunAux : List Resp → Nat → ReqResult
  | [], _ => .noneFallthrough
  | r :: rest, k =>
    match r with
    | .ok => .ok (k + 1)
    | e => if rest ≠ [] then fetchRunAux rest (k + 1) else .raised e (k + 1)

/-- `CompassPhoto._fetch_photo_with_retry` (core.py lines 108-125) run
against the list of per-attempt outcomes. -/
def fetchPhotoWithRetry (attempts : List Resp) : ReqResult :=
  fetchRunAux attempts 0

/-! ## The directory client (`get_staff_photos`, `get_student_photos`) -/

/-- One raw entry of the staff response list `data['d']` with the fields
`get_staff_photos` reads; `none` models an absent key. -/
structure RawStaff where
  n : Option String
  displayCode : Option String
  pv : Option String
deriving DecidableEq, Repr

/-- The per-entry step of the staff filtering loop (core.py lines
390-397): `pv = staff_member.get('pv', '')`; keep the entry iff `pv and
pv.strip()` is truthy, storing the stripped token. -/
def toStaffRecord (e : RawStaff) : Option Person :=
  let pv := e.pv.getD ""
  if pv ≠ "" ∧ pyStrip pv ≠ "" then
    some { name := e.n.getD "Unknown"
           displayCode := e.displayCode.getD "UNKNOWN"
           pv := pyStrip pv }
  else none

/-- `staff_with_photos` (core.py lines 389-397). -/
def staff_with_photos (raw : List RawStaff) : List Person :=
  raw.filterMap toStaffRecord

/-- One raw entry of the student response list with the fields
`get_student_photos` reads, including the alias fields. -/
structure RawStudent where
  n : Option String
  name : Option String
  displayCode : Option String
  code : Option String
  pv : Option String
  photoUrl : Option String
  photo : Option String
deriving DecidableEq, Repr

/-- `student.get('pv','') or student.get('photoUrl','') or
student.get('photo','')` (core.py line 438): Python `or` takes the first
truthy (non-empty) value. -/
def studentPv (e : RawStudent) : String :=
  let a := e.pv.getD ""
  if a ≠ "" then a
  else
    let b := e.photoUrl.getD ""
    if b ≠ "" then b else e.photo.getD ""

/-- The per-entry step of the student filtering loop (core.py lines
437-444), with the name/code alias fallbacks. -/
def toStudentRecord (e : RawStudent) : Option Person :=
  let pv := studentPv e
  if pv ≠ "" ∧ pyStrip pv ≠ "" then
    some { name := e.n.getD (e.name.getD "Unknown")
           displayCode := e.displayCode.getD (e.code.getD "UNKNOWN")
           pv := pyStrip pv }
  else none

/-- `students_with_photos` (core.py lines 432-444). -/
def students_with_photos (raw : List RawStudent) : List Person :=
  raw.filterMap toStudentRecord

/-- Python dict insertion `m[k] = v`: overwrite in place when the key
exists, else append (dicts preserve insertion order). -/
def dictInsert (m : List (String × String)) (k v : String) :
    List (String × String) :=
  if m.any fun kv => kv.1 == k then
    m.map fun kv => if kv.1 == k then (k, v) else kv
  else m ++ [(k, v)]

/-- The `{displayCode: photoURL}` map built by both photo getters
(core.py lines 402-404 and 449-451), with `base` the photo CDN prefix. -/
def codeUrlMap (base : String) (people : List Person) : List (String × String) :=
  people.foldl (fun m p => dictInsert m p.displayCode (base ++ p.pv)) []

/-- Key membership in the map. -/
def hasKey (m : List (String × String)) (k : String) : Bool :=
  m.any fun kv => kv.1 == k

section Scratch

example : extract_timestamp_from_pv "ab12cd34_2502250258AM?x=y" = some "2502250258AM" := by
  decide

example : extract_timestamp_from_pv "abcdefgh" = none := by decide

example : extract_timestamp_from_pv "" = none := by decide

example :
    filenameFor ⟨"John Smith", "JSMITH", "ab12cd34_2502250258AM?x=y"⟩ =
      "JSMITH_ab12cd34_2502250258AM.jpg" := by decide

example : sanitize " J/SM ITH! " = "JSM ITH" := by decide

example : pyStrip " tok123_2501010101AM " = "tok123_2501010101AM" := by decide

example : matchesPattern "AB" "AB_x_1111111111AM.jpg" = true := by decide

example : matchesPattern "AB" "ABC_x.jpg" = false := by decide

example : matchesPattern "AB" "AB_.jpg" = true := by decide

example :
    should_update_photo ["AB_x_1111111111AM.jpg"] "AB" "tok12345_1111111111AM" =
      (false, some "AB_x_1111111111AM.jpg") := by decide

example :
    should_update_photo ["AB_x_1111111111AM.jpg"] "AB" "tok12345_2222222222AM" =
      (true, some "AB_x_1111111111AM.jpg") := by decide

example :
    should_update_photo [] "AB" "tok12345_2222222222AM" = (true, none) := by decide

example :
    processPerson (fun _ => true) [] ⟨"N", "AB", "tok12345_2222222222AM"⟩ =
      ⟨["AB_tok12345_2222222222AM.jpg"], .downloaded, true⟩ := by decide

example :
    processPerson (fun _ => true) ["AB_x_1111111111AM.jpg"]
        ⟨"N", "AB", "tok12345_2222222222AM"⟩ =
      ⟨["AB_tok12345_2222222222AM.jpg"], .updated, true⟩ := by decide

example :
    requestWithRetry [.httpErr 429, .httpErr 429, .ok] = .ok 3 := by decide

example :
    requestWithRetry [.httpErr 429, .httpErr 429, .httpErr 429] =
      .raised (.httpErr 429) 3 := by decide

example : requestWithRetry [.httpErr 500, .ok, .ok] = .raised (.httpErr 500) 1 := by
  decide

example : fetchPhotoWithRetry [.httpErr 500, .ok] = .ok 2 := by decide

end Scratch

/-! ## Supporting lemmas: strings and patterns -/

theorem data_mk (l : List Char) : (String.mk l).data = l := rfl

theorem containsSub_eq_true_iff (n h : List Char) :
    containsSub n h = true ↔ n <:+: h := by
  induction h with
  | nil =>
    simp [containsSub, List.isEmpty_iff]
  | cons c rest ih =>
    simp [containsSub, List.infix_cons_iff, ih]

theorem containsSub_mid (n pre post : List Char) :
    containsSub n (pre ++ n ++ post) = true :=
  (containsSub_eq_true_iff n _).mpr ⟨pre, post, rfl⟩

theorem matchesPatternL_construct (code mid : List Char) :
    matchesPatternL code (code ++ '_' :: mid ++ ['.', 'j', 'p', 'g']) = true := by
  have hpre : (code ++ ['_']).isPrefixOf (code ++ '_' :: mid ++ ['.', 'j', 'p', 'g']) = true := by
    rw [ List.isPrefixOf_iff_prefix]
    exact ⟨mid ++ ['.', 'j', 'p', 'g'], by simp⟩
  have hsuf : ['.', 'j', 'p', 'g'].isSuffixOf (code ++ '_' :: mid ++ ['.', 'j', 'p', 'g']) = true := by
    rw [List.isSuffixOf_iff_suffix]
    exact ⟨code ++ '_' :: mid, by simp⟩
  have hlen : code.length + 5 ≤ (code ++ '_' :: mid ++ ['.', 'j', 'p', 'g']).length := by
    simp only [List.length_append, List.length_cons]
    omega
  unfold matchesPatternL
  rw [hpre, hsuf]
  simp [hlen]

/-- Unfolding the file name built by `download_photos` to its character
list. -/
theorem filenameFor_data (p : Person) :
    (filenameFor p).data =
      (sanitize p.displayCode).data ++ '_' ::
        (p.pv.data.take 8 ++ '_' ::
          ((extract_timestamp_from_pv p.pv).getD "unknown").data) ++
        ['.', 'j', 'p', 'g'] := by
  show ((sanitize p.displayCode ++ "_" ++ String.mk (p.pv.data.take 8) ++ "_" ++
      ((extract_timestamp_from_pv p.pv).getD "unknown") ++ ".jpg")).data = _
  simp [data_mk]

/-- The new file always matches the glob pattern of its own (sanitised)
display code. -/
theorem matchesPattern_filenameFor (p : Person) :
    matchesPattern (sanitize p.displayCode) (filenameFor p) = true := by
  rw [matchesPattern, filenameFor_data]
  exact matchesPatternL_construct _ _

/-- When the token embeds a timestamp, the new file's name contains that
timestamp as a substring. -/
theorem containsSub_filenameFor (p : Person) (ts : String)
    (h : extract_timestamp_from_pv p.pv = some ts) :
    containsSub ts.data (filenameFor p).data = true := by
  rw [filenameFor_data, h]
  have : (sanitize p.displayCode).data ++ '_' ::
      (p.pv.data.take 8 ++ '_' :: (some ts |>.getD "unknown").data) ++
      ['.', 'j', 'p', 'g'] =
      ((sanitize p.displayCode).data ++ '_' :: p.pv.data.take 8 ++ ['_']) ++
        ts.data ++ ['.', 'j', 'p', 'g'] := by simp
  rw [this]
  exact containsSub_mid _ _ _

/-- Two underscore-free codes whose glob patterns agree on a common
prefix are equal: `s ++ "_"` a prefix of `t ++ "_"` forces `s = t`. -/
theorem underscore_prefix_eq (s t : List Char)
    (hs : s.all (· != '_') = true) (ht : t.all (· != '_') = true)
    (h : s ++ ['_'] <+: t ++ ['_']) : s = t := by
  induction s generalizing t with
  | nil =>
    cases t with
    | nil => rfl
    | cons c t' =>
      exfalso
      rw [List.nil_append, List.cons_append, List.cons_prefix_cons] at h
      have : c != '_' := by
        simp only [List.all_cons, Bool.and_eq_true] at ht
        exact ht.1
      simp [h.1.symm] at this
  | cons a s' ih =>
    cases t with
    | nil =>
      exfalso
      rw [List.cons_append, List.nil_append, List.cons_prefix_cons] at h
      have : a != '_' := by
        simp only [List.all_cons, Bool.and_eq_true] at hs
        exact hs.1
      simp [h.1] at this
    | cons c t' =>
      rw [List.cons_append, List.cons_append, List.cons_prefix_cons] at h
      have hs' : s'.all (· != '_') = true := by
        simp only [List.all_cons, Bool.and_eq_true] at hs
        exact hs.2
      have ht' : t'.all (· != '_') = true := by
        simp only [List.all_cons, Bool.and_eq_true] at ht
        exact ht.2
      rw [h.1, ih t' hs' ht' h.2]

/-- A file name cannot match the glob patterns of two different
underscore-free codes. -/
theorem pattern_unique (s t : String) (f : String)
    (hs : s.data.all (· != '_') = true) (ht : t.data.all (· != '_') = true)
    (h1 : matchesPattern s f = true) (h2 : matchesPattern t f = true) : s = t := by
  have p1 : s.data ++ ['_'] <+: f.data := by
    have := h1
    rw [matchesPattern, matchesPatternL] at this
    simp only [Bool.and_eq_true, List.isPrefixOf_iff_prefix] at this
    exact this.1.1
  have p2 : t.data ++ ['_'] <+: f.data := by
    have := h2
    rw [matchesPattern, matchesPatternL] at this
    simp only [Bool.and_eq_true, List.isPrefixOf_iff_prefix] at this
    exact this.1.1
  have hd : s.data = t.data := by
    rcases List.prefix_or_prefix_of_prefix p1 p2 with h | h
    · exact underscore_prefix_eq _ _ hs ht h
    · exact (underscore_prefix_eq _ _ ht hs h).symm
  cases s
  cases t
  exact congrArg String.mk hd

/-! ## Supporting lemmas: timestamp search -/

theorem isTsShape_length (s : List Char) (h : isTsShape s = true) : s.length = 13 := by
  cases s with
  | nil => simp [isTsShape] at h
  | cons c body =>
    simp only [isTsShape, Bool.and_eq_true, beq_iff_eq] at h
    have hb := h.2
    simp only [isTsBody, Bool.and_eq_true, beq_iff_eq] at hb
    simp [hb.1.1]

/-- A successful `re.search` exhibits a matching substring. -/
theorem searchTs_some_shape (l t : List Char) (h : searchTs l = some t) :
    ∃ s, s <:+: l ∧ isTsShape s = true := by
  induction l with
  | nil => simp [searchTs] at h
  | cons c rest ih =>
    rw [searchTs] at h
    cases htc : tsAt (c :: rest) with
    | some t' =>
      rw [htc] at h
      rw [tsAt] at htc
      by_cases hc : c = '_' ∧ isTsBody (rest.take 12) = true
      · refine ⟨'_' :: rest.take 12, ?_, ?_⟩
        · apply List.IsPrefix.isInfix
          rw [hc.1]
          exact (List.cons_prefix_cons).mpr ⟨rfl, List.take_prefix 12 rest⟩
        · simp [isTsShape, hc.2]
      · rw [if_neg (by exact_mod_cast hc)] at htc
        exact absurd htc (by simp)
    | none =>
      rw [htc] at h
      obtain ⟨s, hs, hshape⟩ := ih h
      exact ⟨s, List.infix_cons hs, hshape⟩

/-- If no substring of the token has the timestamp shape, `re.search`
finds nothing. -/
theorem searchTs_eq_none (l : List Char)
    (h : ∀ s, s <:+: l → isTsShape s = false) : searchTs l = none := by
  cases hs : searchTs l with
  | none => rfl
  | some t =>
    obtain ⟨s, hinf, hshape⟩ := searchTs_some_shape l t hs
    rw [h s hinf] at hshape
    cases hshape

/-! ## Supporting lemmas: the change detector -/

theorem should_update_photo_of_no_ts (files : List String) (code pv : String)
    (h : extract_timestamp_from_pv pv = none) :
    should_update_photo files code pv = (true, none) := by
  simp [should_update_photo, h]

/-- If some cached file matches the glob and contains the timestamp the
detector returns `(false, first such file)`, and that file matches the
glob and contains the timestamp. -/
theorem should_update_photo_skip (files : List String) (code pv ts : String)
    (h : extract_timestamp_from_pv pv = some ts)
    (f : String) (hf : f ∈ files) (hm : matchesPattern code f = true)
    (hc : containsSub ts.data f.data = true) :
    ∃ g, should_update_photo files code pv = (false, some g) ∧
      g ∈ files ∧ matchesPattern code g = true ∧ containsSub ts.data g.data = true := by
  have hmem : f ∈ files.filter fun x => matchesPattern code x :=
    List.mem_filter.mpr ⟨hf, hm⟩
  have hne : (files.filter fun x => matchesPattern code x).isEmpty = false := by
    rcases hfe : (files.filter fun x => matchesPattern code x) with _ | ⟨a, l⟩
    · rw [hfe] at hmem; cases hmem
    · rfl
  have hsome : ((files.filter fun x => matchesPattern code x).find? fun x =>
      containsSub ts.data x.data).isSome := by
    rw [List.find?_isSome]
    exact ⟨f, hmem, hc⟩
  obtain ⟨g, hg⟩ := Option.isSome_iff_exists.mp hsome
  have hgp : containsSub ts.data g.data = true := by
    have := List.find?_some hg
    simpa using this
  have hgm : g ∈ files.filter fun x => matchesPattern code x :=
    List.mem_of_find?_eq_some hg
  refine ⟨g, ?_, (List.mem_filter.mp hgm).1, (List.mem_filter.mp hgm).2, hgp⟩
  simp [should_update_photo, h, hne, hg]

/-- If cached files match the glob but none contains the timestamp, the
detector returns `(true, first matching file)`. -/
theorem should_update_photo_replace (files : List String) (code pv ts : String)
    (h : extract_timestamp_from_pv pv = some ts)
    (hne : files.filter (fun x => matchesPattern code x) ≠ [])
    (hall : ∀ f ∈ files.filter fun x => matchesPattern code x,
      containsSub ts.data f.data = false) :
    should_update_photo files code pv =
      (true, (files.filter fun x => matchesPattern code x).head?) := by
  have hemp : (files.filter fun x => matchesPattern code x).isEmpty = false := by
    rcases hfe : (files.filter fun x => matchesPattern code x) with _ | ⟨a, l⟩
    · exact absurd hfe hne
    · rfl
  have hnone : ((files.filter fun x => matchesPattern code x).find? fun x =>
      containsSub ts.data x.data) = none := by
    rw [List.find?_eq_none]
    intro x hx
    simp [hall x hx]
  simp [should_update_photo, h, hemp, hnone]

/-- If no cached file matches the glob, the detector returns
`(true, none)`. -/
theorem should_update_photo_create (files : List String) (code pv ts : String)
    (h : extract_timestamp_from_pv pv = some ts)
    (hemp : files.filter (fun x => matchesPattern code x) = []) :
    should_update_photo files code pv = (true, none) := by
  simp [should_update_photo, h, hemp]

/-- Whatever file the detector names, it is a cached file matching the
glob pattern. -/
theorem should_update_photo_snd_mem (files : List String) (code pv : String)
    (ex : String) (h : (should_update_photo files code pv).2 = some ex) :
    ex ∈ files ∧ matchesPattern code ex = true := by
  rw [should_update_photo] at h
  cases hts : extract_timestamp_from_pv pv with
  | none => rw [hts] at h; simp at h
  | some ts =>
    rw [hts] at h
    simp only at h
    by_cases hemp : (files.filter fun f => matchesPattern code f).isEmpty
    · rw [if_pos hemp] at h; simp at h
    · rw [if_neg hemp] at h
      cases hfind : ((files.filter fun f => matchesPattern code f).find? fun f =>
          containsSub ts.data f.data) with
      | some g =>
        rw [hfind] at h
        simp only [Option.some.injEq] at h
        subst h
        have := List.mem_of_find?_eq_some hfind
        exact ⟨(List.mem_filter.mp this).1, (List.mem_filter.mp this).2⟩
      | none =>
        rw [hfind] at h
        simp only [Option.some.injEq] at h
        have hx : ex ∈ files.filter fun f => matchesPattern code f := by
          rcases hfe : (files.filter fun f => matchesPattern code f) with _ | ⟨a, l⟩
          · rw [hfe] at h; simp at h
          · rw [hfe] at h
            simp only [List.head?_cons, Option.some.injEq] at h
            rw [← h]
            exact List.mem_cons_self a l
        exact ⟨(List.mem_filter.mp hx).1, (List.mem_filter.mp hx).2⟩

/-- The detector only answers "skip" when some cached file matching the
glob contains the token's timestamp. -/
theorem should_update_photo_fst_false (files : List String) (code pv : String)
    (h : (should_update_photo files code pv).1 = false) :
    ∃ ts f, extract_timestamp_from_pv pv = some ts ∧ f ∈ files ∧
      matchesPattern code f = true ∧ containsSub ts.data f.data = true := by
  rw [should_update_photo] at h
  cases hts : extract_timestamp_from_pv pv with
  | none => rw [hts] at h; simp at h
  | some ts =>
    rw [hts] at h
    simp only at h
    by_cases hemp : (files.filter fun f => matchesPattern code f).isEmpty
    · rw [if_pos hemp] at h; simp at h
    · rw [if_neg hemp] at h
      cases hfind : ((files.filter fun f => matchesPattern code f).find? fun f =>
          containsSub ts.data f.data) with
      | some g =>
        have hgm := List.mem_of_find?_eq_some hfind
        have hgp : containsSub ts.data g.data = true := by
          have := List.find?_some hfind
          simpa using this
        exact ⟨ts, g, rfl, (List.mem_filter.mp hgm).1, (List.mem_filter.mp hgm).2, hgp⟩
      | none => rw [hfind] at h; simp at h

/-! ## Supporting lemmas: the sync-engine step -/

theorem mem_writeFile_self (fname : String) (l : List String) :
    fname ∈ writeFile fname l := by
  rw [writeFile]
  by_cases h : fname ∈ l
  · rw [if_pos h]; exact h
  · rw [if_neg h]; exact List.mem_append_right l (List.mem_singleton.mpr rfl)

theorem mem_writeFile_of_mem (fname g : String) (l : List String) (h : g ∈ l) :
    g ∈ writeFile fname l := by
  rw [writeFile]
  by_cases hm : fname ∈ l
  · rw [if_pos hm]; exact h
  · rw [if_neg hm]; exact List.mem_append_left _ h

theorem processPerson_skip (fetchOk : String → Bool) (files : List String) (p : Person)
    (h : (should_update_photo files (sanitize p.displayCode) p.pv).1 = false) :
    processPerson fetchOk files p = ⟨files, .skipped, false⟩ := by
  simp [processPerson, h]

theorem processPerson_create (fetchOk : String → Bool) (files : List String)
    (p : Person)
    (h : should_update_photo files (sanitize p.displayCode) p.pv = (true, none)) :
    processPerson fetchOk files p =
      if fetchOk p.pv then ⟨writeFile (filenameFor p) files, .downloaded, true⟩
      else ⟨files, .failed, true⟩ := by
  simp only [processPerson, h]
  by_cases hf : fetchOk p.pv
  · simp [hf]
  · simp [hf]

theorem processPerson_replace (fetchOk : String → Bool) (files : List String)
    (p : Person) (e : String)
    (h : should_update_photo files (sanitize p.displayCode) p.pv = (true, some e)) :
    processPerson fetchOk files p =
      if fetchOk p.pv then
        ⟨writeFile (filenameFor p) (files.erase e), .updated, true⟩
      else ⟨files.erase e, .failed, true⟩ := by
  simp only [processPerson, h]
  by_cases hf : fetchOk p.pv
  · simp [hf]
  · simp [hf]

/-! ## Supporting lemmas: cache invariant for idempotence -/

/-- The skip invariant: the cache holds a file matching `p`'s glob whose
name contains `p`'s token timestamp, so the detector will answer "skip"
for `p`. -/
def SkipReady (p : Person) (files : List String) : Prop :=
  ∃ ts, extract_timestamp_from_pv p.pv = some ts ∧
    ∃ f ∈ files, matchesPattern (sanitize p.displayCode) f = true ∧
      containsSub ts.data f.data = true

theorem processPerson_of_skipReady (fetchOk : String → Bool) (files : List String)
    (p : Person) (h : SkipReady p files) :
    processPerson fetchOk files p = ⟨files, .skipped, false⟩ := by
  obtain ⟨ts, hts, f, hf, hm, hc⟩ := h
  obtain ⟨g, hg, -⟩ := should_update_photo_skip files (sanitize p.displayCode) p.pv ts hts f hf hm hc
  exact processPerson_skip fetchOk files p (by rw [hg])

/-- Processing a person whose token has a timestamp, when the fetch
succeeds, establishes the skip invariant for that person. -/
theorem skipReady_establish (fetchOk : String → Bool) (files : List String)
    (p : Person) (ts : String) (hts : extract_timestamp_from_pv p.pv = some ts)
    (hfetch : fetchOk p.pv = true) :
    SkipReady p (processPerson fetchOk files p).files := by
  cases hd : should_update_photo files (sanitize p.displayCode) p.pv with
  | mk su ex =>
    cases su with
    | false =>
      rw [processPerson_skip fetchOk files p (by rw [hd])]
      obtain ⟨ts', f, hts', hf, hm, hc⟩ :=
        should_update_photo_fst_false files (sanitize p.displayCode) p.pv (by rw [hd])
      exact ⟨ts', hts', f, hf, hm, hc⟩
    | true =>
      cases ex with
      | none =>
        rw [processPerson_create fetchOk files p hd]
        simp only [hfetch, if_pos]
        exact ⟨ts, hts, filenameFor p, mem_writeFile_self _ _,
          matchesPattern_filenameFor p, containsSub_filenameFor p ts hts⟩
      | some e =>
        rw [processPerson_replace fetchOk files p e hd]
        simp only [hfetch, if_pos]
        exact ⟨ts, hts, filenameFor p, mem_writeFile_self _ _,
          matchesPattern_filenameFor p, containsSub_filenameFor p ts hts⟩

/-- Processing person `q` preserves the skip invariant of `p`, provided
sanitised display codes are underscore-free and either equal codes imply
equal persons. -/
theorem skipReady_preserve (fetchOk : String → Bool) (files : List String)
    (p q : Person)
    (hfp : (sanitize p.displayCode).data.all (· != '_') = true)
    (hfq : (sanitize q.displayCode).data.all (· != '_') = true)
    (hdist : sanitize p.displayCode = sanitize q.displayCode → p = q)
    (h : SkipReady p files) :
    SkipReady p (processPerson fetchOk files q).files := by
  by_cases heq : sanitize p.displayCode = sanitize q.displayCode
  · have : p = q := hdist heq
    subst this
    rw [processPerson_of_skipReady fetchOk files p h]
    exact h
  · obtain ⟨ts, hts, f, hf, hm, hc⟩ := h
    cases hd : should_update_photo files (sanitize q.displayCode) q.pv with
    | mk su ex =>
      cases su with
      | false =>
        rw [processPerson_skip fetchOk files q (by rw [hd])]
        exact ⟨ts, hts, f, hf, hm, hc⟩
      | true =>
        cases ex with
        | none =>
          rw [processPerson_create fetchOk files q hd]
          by_cases hfo : fetchOk q.pv
          · simp only [hfo, if_pos]
            exact ⟨ts, hts, f, mem_writeFile_of_mem _ _ _ hf, hm, hc⟩
          · simp only [hfo, Bool.false_eq_true, if_false]
            exact ⟨ts, hts, f, hf, hm, hc⟩
        | some e =>
          rw [processPerson_replace fetchOk files q e hd]
          have hem := should_update_photo_snd_mem files (sanitize q.displayCode) q.pv e
            (by rw [hd])
          have hne : f ≠ e := by
            intro hfe
            subst hfe
            exact heq (pattern_unique _ _ f hfp hfq hm hem.2)
          have hmem1 : f ∈ files.erase e := (List.mem_erase_of_ne hne).mpr hf
          by_cases hfo : fetchOk q.pv
          · simp only [hfo, if_pos]
            exact ⟨ts, hts, f, mem_writeFile_of_mem _ _ _ hmem1, hm, hc⟩
          · simp only [hfo, Bool.false_eq_true, if_false]
            exact ⟨ts, hts, f, hmem1, hm, hc⟩

/-! ## Supporting lemmas: whole-batch runs -/

theorem skipReady_runBatch_preserve (fetchOk : String → Bool) (p : Person) :
    ∀ (rest : List Person) (files : List String),
    (sanitize p.displayCode).data.all (· != '_') = true →
    (∀ q ∈ rest, (sanitize q.displayCode).data.all (· != '_') = true ∧
      (sanitize p.displayCode = sanitize q.displayCode → p = q)) →
    SkipReady p files → SkipReady p (runBatch fetchOk files rest).files := by
  intro rest
  induction rest with
  | nil => intro files _ _ h; exact h
  | cons q rest' ih =>
    intro files hfp hq h
    rw [runBatch]
    refine ih (processPerson fetchOk files q).files hfp
      (fun r hr => hq r (List.mem_cons_of_mem q hr)) ?_
    exact skipReady_preserve fetchOk files p q hfp
      (hq q (List.mem_cons_self q rest')).1 (hq q (List.mem_cons_self q rest')).2 h

theorem skipReady_runBatch_all (fetchOk : String → Bool) :
    ∀ (people : List Person) (files : List String),
    (∀ p ∈ people, (extract_timestamp_from_pv p.pv).isSome = true) →
    (∀ p ∈ people, fetchOk p.pv = true) →
    (∀ p ∈ people, (sanitize p.displayCode).data.all (· != '_') = true) →
    (∀ p ∈ people, ∀ q ∈ people,
      sanitize p.displayCode = sanitize q.displayCode → p = q) →
    ∀ p ∈ people, SkipReady p (runBatch fetchOk files people).files := by
  intro people
  induction people with
  | nil => intro files _ _ _ _ p hp; cases hp
  | cons p0 rest ih =>
    intro files hts hfe hfree hdist p hp
    rw [runBatch]
    rcases List.mem_cons.mp hp with rfl | hp'
    · obtain ⟨ts, hts0⟩ := Option.isSome_iff_exists.mp
        (hts p (List.mem_cons_self p rest))
      refine skipReady_runBatch_preserve fetchOk p rest _
        (hfree p (List.mem_cons_self p rest)) ?_ ?_
      · intro q hq
        exact ⟨hfree q (List.mem_cons_of_mem p hq),
          hdist p (List.mem_cons_self p rest) q (List.mem_cons_of_mem p hq)⟩
      · exact skipReady_establish fetchOk files p ts hts0
          (hfe p (List.mem_cons_self p rest))
    · exact ih (processPerson fetchOk files p0).files
        (fun r hr => hts r (List.mem_cons_of_mem p0 hr))
        (fun r hr => hfe r (List.mem_cons_of_mem p0 hr))
        (fun r hr => hfree r (List.mem_cons_of_mem p0 hr))
        (fun r hr s hs => hdist r (List.mem_cons_of_mem p0 hr) s (List.mem_cons_of_mem p0 hs))
        p hp'

/-- A run in which every person is skip-ready changes nothing: all
persons are skipped, no network call is made. -/
theorem runBatch_all_skipReady (fetchOk : String → Bool) :
    ∀ (people : List Person) (files : List String),
    (∀ p ∈ people, SkipReady p files) →
    runBatch fetchOk files people =
      ⟨files, ⟨people.length, 0, 0, people.length, 0⟩, 0⟩ := by
  intro people
  induction people with
  | nil => intro files _; rfl
  | cons p rest ih =>
    intro files h
    rw [runBatch, processPerson_of_skipReady fetchOk files p (h p (List.mem_cons_self p rest))]
    rw [ih files (fun q hq => h q (List.mem_cons_of_mem p hq))]
    simp [bump]

theorem bump_total (a : Action) (s : Stats) :
    (bump a s).total_processed = s.total_processed + 1 := by
  cases a <;> rfl

/-- Every person of the batch is processed: the loop never aborts. -/
theorem runBatch_total (fetchOk : String → Bool) :
    ∀ (people : List Person) (files : List String),
    (runBatch fetchOk files people).stats.total_processed = people.length := by
  intro people
  induction people with
  | nil => intro files; rfl
  | cons p rest ih =>
    intro files
    rw [runBatch]
    simp only [bump_total, List.length_cons, ih]

theorem bump_partition (a : Action) (s : Stats)
    (h : s.downloaded + s.updated + s.skipped + s.failed = s.total_processed) :
    (bump a s).downloaded + (bump a s).updated + (bump a s).skipped + (bump a s).failed =
      (bump a s).total_processed := by
  cases a <;> simp [bump] <;> omega

/-- Each loop iteration increments exactly one counter. -/
theorem runBatch_partition (fetchOk : String → Bool) :
    ∀ (people : List Person) (files : List String),
    (runBatch fetchOk files people).stats.downloaded +
      (runBatch fetchOk files people).stats.updated +
      (runBatch fetchOk files people).stats.skipped +
      (runBatch fetchOk files people).stats.failed =
      (runBatch fetchOk files people).stats.total_processed := by
  intro people
  induction people with
  | nil => intro files; rfl
  | cons p rest ih =>
    intro files
    rw [runBatch]
    exact bump_partition _ _ (ih _)

/-! ## Supporting lemmas: the retry loops -/

theorem reqRunAux_replicate_429_ok :
    ∀ (N k : Nat) (rest : List Resp),
    reqRunAux (List.replicate N (.httpErr 429) ++ .ok :: rest) k = .ok (k + N + 1) := by
  intro N
  induction N with
  | zero => intro k rest; rfl
  | succ n ih =>
    intro k rest
    rw [List.replicate_succ, List.cons_append, reqRunAux]
    have hne : List.replicate n (Resp.httpErr 429) ++ .ok :: rest ≠ [] := by
      simp
    rw [if_pos ⟨Or.inr rfl, hne⟩, ih (k + 1) rest]
    have : k + 1 + n + 1 = k + (n + 1) + 1 := by omega
    rw [this]

theorem reqRunAux_replicate_429_fail :
    ∀ (m k : Nat),
    reqRunAux (List.replicate (m + 1) (.httpErr 429)) k =
      .raised (.httpErr 429) (k + m + 1) := by
  intro m
  induction m with
  | zero =>
    intro k
    rw [List.replicate_succ, List.replicate_zero, reqRunAux]
    rw [if_neg (by simp)]
  | succ n ih =>
    intro k
    rw [List.replicate_succ, reqRunAux]
    have hne : List.replicate (n + 1) (Resp.httpErr 429) ≠ [] := by simp
    rw [if_pos ⟨Or.inr rfl, hne⟩, ih (k + 1)]
    have : k + 1 + n + 1 = k + (n + 1) + 1 := by omega
    rw [this]

/-! ## Claim theorems -/

/-- C1: for every (displayCode, token) pair where the token embeds a
timestamp (`_` + ten digits + `A`/`P` + `M`) and some cached file
matching `{displayCode}_*.jpg` contains that timestamp as a substring,
`should_update_photo` decides Skip (`should_update = false`), and
`download_photos` increments only the `skipped` counter for that person
and issues no photo-download network call: the step leaves the cache
untouched, records `skipped`, fetches nothing, and the one-person batch
ends with `skipped = 1`, all other counters `0`, zero network calls.
(`download_photos` matches on the sanitised display code, which for the
glob-safe codes the engine produces is the display code itself.) -/
theorem claim_C1_skip_no_network (fetchOk : String → Bool) (files : List String)
    (p : Person) (ts f : String)
    (hts : extract_timestamp_from_pv p.pv = some ts)
    (hf : f ∈ files)
    (hm : matchesPattern (sanitize p.displayCode) f = true)
    (hc : containsSub ts.data f.data = true) :
    (should_update_photo files (sanitize p.displayCode) p.pv).1 = false ∧
    processPerson fetchOk files p = ⟨files, .skipped, false⟩ ∧
    runBatch fetchOk files [p] = ⟨files, ⟨1, 0, 0, 1, 0⟩, 0⟩ := by
  obtain ⟨g, hg, -⟩ :=
    should_update_photo_skip files (sanitize p.displayCode) p.pv ts hts f hf hm hc
  have h1 : (should_update_photo files (sanitize p.displayCode) p.pv).1 = false := by
    rw [hg]
  have h2 := processPerson_skip fetchOk files p h1
  refine ⟨h1, h2, ?_⟩
  simp [runBatch, h2, bump]

theorem claim_C1_witness :
    let p : Person := ⟨"N", "AB", "tok12345_1111111111AM"⟩
    let files := ["AB_x_1111111111AM.jpg"]
    (should_update_photo files (sanitize p.displayCode) p.pv).1 = false ∧
    processPerson (fun _ => true) files p = ⟨files, .skipped, false⟩ ∧
    runBatch (fun _ => true) files [p] = ⟨files, ⟨1, 0, 0, 1, 0⟩, 0⟩ :=
  claim_C1_skip_no_network (fun _ => true) ["AB_x_1111111111AM.jpg"]
    ⟨"N", "AB", "tok12345_1111111111AM"⟩ "1111111111AM" "AB_x_1111111111AM.jpg"
    (by decide) (by decide) (by decide) (by decide)

/-- C2: for every token with no substring of the timestamp shape
(underscore, ten digits, `A` or `P`, `M`), `should_update_photo` never
decides Skip: it returns `(should_update, existing) = (true, none)`
whatever the display code and whatever cached files exist. -/
theorem claim_C2_no_timestamp_never_skip (files : List String) (code pv : String)
    (h : ∀ s, s <:+: pv.data → isTsShape s = false) :
    should_update_photo files code pv = (true, none) := by
  have hn : searchTs pv.data = none := searchTs_eq_none pv.data h
  exact should_update_photo_of_no_ts files code pv
    (by simp [extract_timestamp_from_pv, hn])

theorem claim_C2_witness :
    should_update_photo ["A_x.jpg"] "A" "hello" = (true, none) :=
  claim_C2_no_timestamp_never_skip ["A_x.jpg"] "A" "hello" (by
    intro s hs
    cases hshape : isTsShape s with
    | false => rfl
    | true =>
      exfalso
      have h13 := isTsShape_length s hshape
      have hle := hs.length_le
      rw [h13] at hle
      have h5 : ("hello" : String).data.length = 5 := rfl
      omega)

/-- C5: retry bound of the transport.  `requestWithRetry` runs the
retry loop of `_request_with_retry` against the list of per-attempt
outcomes, whose length is `max_retries`.  If the environment yields `N`
consecutive 429 responses followed by a success (so `N < max_retries`),
the operation returns the response after exactly `N + 1` attempts; if
every one of the `max_retries` attempts yields 429, the operation raises
the last 429 error and exactly `max_retries` attempts were made. -/
theorem claim_C5_retry_bound :
    (∀ (N : Nat) (rest : List Resp),
      requestWithRetry (List.replicate N (.httpErr 429) ++ .ok :: rest) =
        .ok (N + 1)) ∧
    (∀ m : Nat,
      requestWithRetry (List.replicate (m + 1) (.httpErr 429)) =
        .raised (.httpErr 429) (m + 1)) := by
  constructor
  · intro N rest
    have h := reqRunAux_replicate_429_ok N 0 rest
    rw [requestWithRetry, h, Nat.zero_add]
  · intro m
    have h := reqRunAux_replicate_429_fail m 0
    rw [requestWithRetry, h, Nat.zero_add]

/-- C6 amended: in `_request_with_retry`, only HTTP statuses 403 and
429, timeouts and connection errors are retried, and every other HTTP
error status propagates immediately on the first attempt; but
`_fetch_photo_with_retry` (used for photo downloads) catches
`requests.exceptions.RequestException`, so it retries every failure —
HTTP errors of any status included — while attempts remain.  (The claim
as frozen asserted immediate propagation of other statuses for photo
downloads too; `claim_C6_counterexample` refutes that.) -/
theorem claim_C6_retryable_conditions :
    (∀ (s : Nat) (rest : List Resp), s ≠ 403 → s ≠ 429 →
      requestWithRetry (.httpErr s :: rest) = .raised (.httpErr s) 1) ∧
    (∀ (s : Nat) (r : Resp) (rest : List Resp), s = 403 ∨ s = 429 →
      requestWithRetry (.httpErr s :: r :: rest) = reqRunAux (r :: rest) 1) ∧
    (∀ (r : Resp) (rest : List Resp),
      requestWithRetry (.timeout :: r :: rest) = reqRunAux (r :: rest) 1) ∧
    (∀ (r : Resp) (rest : List Resp),
      requestWithRetry (.connErr :: r :: rest) = reqRunAux (r :: rest) 1) ∧
    (∀ (e r : Resp) (rest : List Resp), e ≠ .ok →
      fetchPhotoWithRetry (e :: r :: rest) = fetchRunAux (r :: rest) 1) := by
  refine ⟨?_, ?_, ?_, ?_, ?_⟩
  · intro s rest h3 h9
    rw [requestWithRetry, reqRunAux]
    rw [if_neg]
    intro hcon
    rcases hcon.1 with h | h
    · exact h3 h
    · exact h9 h
  · intro s r rest h
    rw [requestWithRetry, reqRunAux, if_pos ⟨h, List.cons_ne_nil r rest⟩]
  · intro r rest
    rw [requestWithRetry, reqRunAux, if_pos (List.cons_ne_nil r rest)]
  · intro r rest
    rw [requestWithRetry, reqRunAux, if_pos (List.cons_ne_nil r rest)]
  · intro e r rest he
    cases e with
    | ok => exact absurd rfl he
    | httpErr s =>
      rw [fetchPhotoWithRetry, fetchRunAux, if_pos (List.cons_ne_nil r rest)]
      intro h
      exact Resp.noConfusion h
    | timeout =>
      rw [fetchPhotoWithRetry, fetchRunAux, if_pos (List.cons_ne_nil r rest)]
      intro h
      exact Resp.noConfusion h
    | connErr =>
      rw [fetchPhotoWithRetry, fetchRunAux, if_pos (List.cons_ne_nil r rest)]
      intro h
      exact Resp.noConfusion h

theorem claim_C6_witness :
    requestWithRetry [.httpErr 500] = .raised (.httpErr 500) 1 ∧
    requestWithRetry [.httpErr 429, .ok] = reqRunAux [.ok] 1 ∧
    fetchPhotoWithRetry [.httpErr 404, .ok] = fetchRunAux [.ok] 1 :=
  ⟨claim_C6_retryable_conditions.1 500 [] (by decide) (by decide),
   claim_C6_retryable_conditions.2.1 429 .ok [] (Or.inr rfl),
   claim_C6_retryable_conditions.2.2.2.2 (.httpErr 404) .ok [] (by simp)⟩

/-- C6 counterexample: a photo download hit by an HTTP 500 — a status
that is neither 403 nor 429 — does not propagate on the first attempt:
`_fetch_photo_with_retry` retries it, and with a success on the second
attempt the operation returns after 2 attempts. -/
theorem claim_C6_counterexample :
    fetchPhotoWithRetry [.httpErr 500, .ok] = .ok 2 := by decide

/-- Erasing an element satisfying the filter predicate commutes with
filtering. -/
theorem filter_erase_of_pos (l : List String) (a : String) (p : String → Bool)
    (h : p a = true) : (l.erase a).filter p = (l.filter p).erase a := by
  induction l with
  | nil => rfl
  | cons x xs ih =>
    by_cases hxa : x = a
    · subst hxa
      rw [List.erase_cons_head, List.filter_cons_of_pos h, List.erase_cons_head]
    · rw [List.erase_cons_tail (by simp [hxa])]
      cases hpx : p x
      · rw [List.filter_cons_of_neg (by simp [hpx]),
          List.filter_cons_of_neg (by simp [hpx])]
        exact ih
      · rw [List.filter_cons_of_pos hpx, List.filter_cons_of_pos hpx,
          List.erase_cons_tail (by simp [hxa]), ih]

/-- C3 amended: for every (displayCode, token) pair where the token
embeds a timestamp and at least one cached file matches
`{displayCode}_*.jpg` but none contains that timestamp, the detector
decides Replace naming the first matching file, and the sync engine
deletes that file before downloading (on a failed fetch the file is
already gone).  When the matching file is unique, after a successful
sync exactly one cached file exists for that displayCode — the claim's
"exactly one file afterwards" holds only in that case: with several
stale matches only the first is deleted and the others remain
(`claim_C3_counterexample`). -/
theorem claim_C3_replace_first (fetchOk : String → Bool) (files : List String)
    (p : Person) (ts : String)
    (hts : extract_timestamp_from_pv p.pv = some ts)
    (hne : files.filter (fun x => matchesPattern (sanitize p.displayCode) x) ≠ [])
    (hall : ∀ f ∈ files.filter (fun x => matchesPattern (sanitize p.displayCode) x),
      containsSub ts.data f.data = false) :
    ∃ f0,
      (files.filter fun x => matchesPattern (sanitize p.displayCode) x).head? = some f0 ∧
      should_update_photo files (sanitize p.displayCode) p.pv = (true, some f0) ∧
      (fetchOk p.pv = false →
        processPerson fetchOk files p = ⟨files.erase f0, .failed, true⟩) ∧
      (fetchOk p.pv = true →
        processPerson fetchOk files p =
          ⟨files.erase f0 ++ [filenameFor p], .updated, true⟩) ∧
      ((files.filter fun x => matchesPattern (sanitize p.displayCode) x) = [f0] →
        fetchOk p.pv = true →
        (processPerson fetchOk files p).files.filter
          (fun x => matchesPattern (sanitize p.displayCode) x) = [filenameFor p]) := by
  rcases hfe : files.filter fun x => matchesPattern (sanitize p.displayCode) x with
    _ | ⟨a, l⟩
  · exact absurd hfe hne
  have hdec := should_update_photo_replace files (sanitize p.displayCode) p.pv ts
    hts hne hall
  rw [hfe] at hdec
  simp only [List.head?_cons] at hdec
  have hrep := processPerson_replace fetchOk files p a hdec
  have hnotin : filenameFor p ∉ files.erase a := by
    intro hmem
    have hmem' : filenameFor p ∈ files := List.mem_of_mem_erase hmem
    have hmemf : filenameFor p ∈
        files.filter fun x => matchesPattern (sanitize p.displayCode) x :=
      List.mem_filter.mpr ⟨hmem', matchesPattern_filenameFor p⟩
    have hfalse := hall _ hmemf
    rw [containsSub_filenameFor p ts hts] at hfalse
    cases hfalse
  have hwf : writeFile (filenameFor p) (files.erase a) =
      files.erase a ++ [filenameFor p] := by
    rw [writeFile, if_neg hnotin]
  have hamem : a ∈ files.filter fun x => matchesPattern (sanitize p.displayCode) x := by
    rw [hfe]
    exact List.mem_cons_self a l
  refine ⟨a, List.head?_cons, hdec, ?_, ?_, ?_⟩
  · intro hfo
    rw [hrep, if_neg (by rw [hfo]; exact Bool.false_ne_true)]
  · intro hfo
    rw [hrep, if_pos hfo, hwf]
  · intro hone hfo
    rw [hrep, if_pos hfo]
    simp only [hwf]
    rw [List.filter_append,
      filter_erase_of_pos files a _ (List.mem_filter.mp hamem).2,
      hfe, hone, List.erase_cons_head]
    simp [matchesPattern_filenameFor p]

/-- C3 counterexample: with two stale cached files for display code
`AB`, a successful sync leaves two files matching `AB_*.jpg` (the second
stale file plus the new download), not exactly one: only the first
matching file is deleted. -/
theorem claim_C3_counterexample :
    ((processPerson (fun _ => true)
        ["AB_x_1111111111AM.jpg", "AB_y_2222222222AM.jpg"]
        ⟨"N", "AB", "tok12345_3333333333AM"⟩).files.filter
      (fun x => matchesPattern "AB" x)).length = 2 := by decide

theorem claim_C3_witness :
    0 < 1 ∧
    (∃ f0,
      (["AB_x_1111111111AM.jpg"].filter fun x =>
        matchesPattern (sanitize (Person.displayCode ⟨"N", "AB", "tok12345_2222222222AM"⟩)) x).head? = some f0 ∧
      should_update_photo ["AB_x_1111111111AM.jpg"]
        (sanitize (Person.displayCode ⟨"N", "AB", "tok12345_2222222222AM"⟩))
        (Person.pv ⟨"N", "AB", "tok12345_2222222222AM"⟩) = (true, some f0) ∧
      ((fun _ => true : String → Bool) (Person.pv ⟨"N", "AB", "tok12345_2222222222AM"⟩) = false →
        processPerson (fun _ => true) ["AB_x_1111111111AM.jpg"]
          ⟨"N", "AB", "tok12345_2222222222AM"⟩ =
          ⟨["AB_x_1111111111AM.jpg"].erase f0, .failed, true⟩) ∧
      ((fun _ => true : String → Bool) (Person.pv ⟨"N", "AB", "tok12345_2222222222AM"⟩) = true →
        processPerson (fun _ => true) ["AB_x_1111111111AM.jpg"]
          ⟨"N", "AB", "tok12345_2222222222AM"⟩ =
          ⟨["AB_x_1111111111AM.jpg"].erase f0 ++
            [filenameFor ⟨"N", "AB", "tok12345_2222222222AM"⟩], .updated, true⟩) ∧
      ((["AB_x_1111111111AM.jpg"].filter fun x =>
          matchesPattern (sanitize (Person.displayCode ⟨"N", "AB", "tok12345_2222222222AM"⟩)) x) = [f0] →
        (fun _ => true : String → Bool) (Person.pv ⟨"N", "AB", "tok12345_2222222222AM"⟩) = true →
        (processPerson (fun _ => true) ["AB_x_1111111111AM.jpg"]
          ⟨"N", "AB", "tok12345_2222222222AM"⟩).files.filter
          (fun x => matchesPattern (sanitize (Person.displayCode ⟨"N", "AB", "tok12345_2222222222AM"⟩)) x) =
          [filenameFor ⟨"N", "AB", "tok12345_2222222222AM"⟩])) :=
  ⟨Nat.zero_lt_one,
    claim_C3_replace_first (fun _ => true) ["AB_x_1111111111AM.jpg"]
      ⟨"N", "AB", "tok12345_2222222222AM"⟩ "2222222222AM"
      (by decide) (by decide) (by decide)⟩

/-- C4 amended: the sync engine is idempotent on batches whose tokens
all embed a timestamp, whose fetches succeed, and whose sanitised
display codes are pairwise distinct (per the data model displayCode is
unique per directory) and underscore-free: running `download_photos` a
second time on the same batch with an unchanged cache makes the second
run skip everyone — `skipped = total_processed`,
`downloaded = updated = failed = 0`, zero network calls, cache
unchanged.  Without the timestamp hypothesis the claim fails: a token
with no embedded timestamp is re-downloaded on every run
(`claim_C4_counterexample`). -/
theorem claim_C4_idempotent (fetchOk : String → Bool) (files : List String)
    (people : List Person)
    (hts : ∀ p ∈ people, (extract_timestamp_from_pv p.pv).isSome = true)
    (hfe : ∀ p ∈ people, fetchOk p.pv = true)
    (hfree : ∀ p ∈ people, (sanitize p.displayCode).data.all (· != '_') = true)
    (hdist : ∀ p ∈ people, ∀ q ∈ people,
      sanitize p.displayCode = sanitize q.displayCode → p = q) :
    (download_photos fetchOk (download_photos fetchOk files people none).files
        people none).stats.skipped =
      (download_photos fetchOk (download_photos fetchOk files people none).files
        people none).stats.total_processed ∧
    (download_photos fetchOk (download_photos fetchOk files people none).files
        people none).stats.downloaded = 0 ∧
    (download_photos fetchOk (download_photos fetchOk files people none).files
        people none).stats.updated = 0 ∧
    (download_photos fetchOk (download_photos fetchOk files people none).files
        people none).stats.failed = 0 ∧
    (download_photos fetchOk (download_photos fetchOk files people none).files
        people none).calls = 0 ∧
    (download_photos fetchOk (download_photos fetchOk files people none).files
        people none).files =
      (download_photos fetchOk files people none).files := by
  have hall := skipReady_runBatch_all fetchOk people files hts hfe hfree hdist
  have key : download_photos fetchOk (download_photos fetchOk files people none).files
      people none =
      ⟨(download_photos fetchOk files people none).files,
        ⟨people.length, 0, 0, people.length, 0⟩, 0⟩ := by
    show runBatch fetchOk (runBatch fetchOk files people).files people = _
    exact runBatch_all_skipReady fetchOk people (runBatch fetchOk files people).files hall
  rw [key]
  exact ⟨rfl, rfl, rfl, rfl, rfl, rfl⟩

/-- C4 counterexample: a person whose token embeds no timestamp is
downloaded again by the second run: after a completed first run on the
same one-person batch, the second run reports `downloaded = 1` and
`skipped = 0`, not `skipped = total_processed` and `downloaded = 0`. -/
theorem claim_C4_counterexample :
    (download_photos (fun _ => true)
        (download_photos (fun _ => true) [] [⟨"John", "JDOE", "abcdefgh"⟩] none).files
        [⟨"John", "JDOE", "abcdefgh"⟩] none).stats.downloaded = 1 ∧
    (download_photos (fun _ => true)
        (download_photos (fun _ => true) [] [⟨"John", "JDOE", "abcdefgh"⟩] none).files
        [⟨"John", "JDOE", "abcdefgh"⟩] none).stats.skipped = 0 ∧
    (download_photos (fun _ => true)
        (download_photos (fun _ => true) [] [⟨"John", "JDOE", "abcdefgh"⟩] none).files
        [⟨"John", "JDOE", "abcdefgh"⟩] none).stats.total_processed = 1 := by
  decide

theorem claim_C4_witness :
    (download_photos (fun _ => true)
        (download_photos (fun _ => true) []
          [⟨"Jane", "JDOE", "tok12345_1111111111AM"⟩] none).files
        [⟨"Jane", "JDOE", "tok12345_1111111111AM"⟩] none).stats.skipped =
      (download_photos (fun _ => true)
        (download_photos (fun _ => true) []
          [⟨"Jane", "JDOE", "tok12345_1111111111AM"⟩] none).files
        [⟨"Jane", "JDOE", "tok12345_1111111111AM"⟩] none).stats.total_processed ∧
    (download_photos (fun _ => true)
        (download_photos (fun _ => true) []
          [⟨"Jane", "JDOE", "tok12345_1111111111AM"⟩] none).files
        [⟨"Jane", "JDOE", "tok12345_1111111111AM"⟩] none).stats.downloaded = 0 ∧
    (download_photos (fun _ => true)
        (download_photos (fun _ => true) []
          [⟨"Jane", "JDOE", "tok12345_1111111111AM"⟩] none).files
        [⟨"Jane", "JDOE", "tok12345_1111111111AM"⟩] none).stats.updated = 0 ∧
    (download_photos (fun _ => true)
        (download_photos (fun _ => true) []
          [⟨"Jane", "JDOE", "tok12345_1111111111AM"⟩] none).files
        [⟨"Jane", "JDOE", "tok12345_1111111111AM"⟩] none).stats.failed = 0 ∧
    (download_photos (fun _ => true)
        (download_photos (fun _ => true) []
          [⟨"Jane", "JDOE", "tok12345_1111111111AM"⟩] none).files
        [⟨"Jane", "JDOE", "tok12345_1111111111AM"⟩] none).calls = 0 ∧
    (download_photos (fun _ => true)
        (download_photos (fun _ => true) []
          [⟨"Jane", "JDOE", "tok12345_1111111111AM"⟩] none).files
        [⟨"Jane", "JDOE", "tok12345_1111111111AM"⟩] none).files =
      (download_photos (fun _ => true) []
        [⟨"Jane", "JDOE", "tok12345_1111111111AM"⟩] none).files :=
  claim_C4_idempotent (fun _ => true) [] [⟨"Jane", "JDOE", "tok12345_1111111111AM"⟩]
    (by decide) (by decide) (by decide) (by decide)

/-- C7: partial-failure isolation.  First, for every batch, every
initial cache and every fetch oracle, the loop of `download_photos`
processes the whole batch: `total_processed` equals the batch length —
no exception aborts the run.  Second, on a concrete batch of 10 people
whose fifth person's download throws, the run reports `failed = 1`,
`total_processed = 10`, persons 6–10 are still processed (their files
are on disk, 9 downloads succeed), and all 10 fetches were attempted. -/
theorem claim_C7_partial_failure :
    (∀ (fetchOk : String → Bool) (files : List String) (people : List Person),
      (runBatch fetchOk files people).stats.total_processed = people.length) ∧
    runBatch (fun pv => pv != "tok00005_5555555555AM") []
      [⟨"P1", "C01", "tok00001_1111111111AM"⟩, ⟨"P2", "C02", "tok00002_2222222222AM"⟩,
       ⟨"P3", "C03", "tok00003_3333333333AM"⟩, ⟨"P4", "C04", "tok00004_4444444444AM"⟩,
       ⟨"P5", "C05", "tok00005_5555555555AM"⟩, ⟨"P6", "C06", "tok00006_6666666666AM"⟩,
       ⟨"P7", "C07", "tok00007_7777777777AM"⟩, ⟨"P8", "C08", "tok00008_8888888888AM"⟩,
       ⟨"P9", "C09", "tok00009_9999999999AM"⟩,
       ⟨"P10", "C10", "tok00010_1010101010AM"⟩] =
      ⟨["C01_tok00001_1111111111AM.jpg", "C02_tok00002_2222222222AM.jpg",
        "C03_tok00003_3333333333AM.jpg", "C04_tok00004_4444444444AM.jpg",
        "C06_tok00006_6666666666AM.jpg", "C07_tok00007_7777777777AM.jpg",
        "C08_tok00008_8888888888AM.jpg", "C09_tok00009_9999999999AM.jpg",
        "C10_tok00010_1010101010AM.jpg"],
       ⟨10, 9, 0, 0, 1⟩, 10⟩ :=
  ⟨fun fetchOk files people => runBatch_total fetchOk people files, by decide⟩

/-- C9: for the token `"ab12cd34_2502250258AM?x=y"`,
`extract_timestamp_from_pv` returns `"2502250258AM"`, and for display
code `"JSMITH"` the sync engine names the saved file
`"JSMITH_ab12cd34_2502250258AM.jpg"`; in general the name is
`{sanitised displayCode}_{first 8 chars of token}_{timestamp, or
"unknown" when none is embedded}.jpg`. -/
theorem claim_C9_filename_construction :
    extract_timestamp_from_pv "ab12cd34_2502250258AM?x=y" = some "2502250258AM" ∧
    filenameFor ⟨"John Smith", "JSMITH", "ab12cd34_2502250258AM?x=y"⟩ =
      "JSMITH_ab12cd34_2502250258AM.jpg" ∧
    (∀ p : Person,
      filenameFor p = sanitize p.displayCode ++ "_" ++ String.mk (p.pv.data.take 8) ++
        "_" ++ ((extract_timestamp_from_pv p.pv).getD "unknown") ++ ".jpg") :=
  ⟨by decide, by decide, fun p => rfl⟩

theorem pyStrip_empty : pyStrip "" = "" := rfl

/-- Replacing the value stored under a key leaves key membership
unchanged. -/
theorem hasKey_map_replace (m : List (String × String)) (kIns v k : String) :
    hasKey (m.map fun kv => if kv.1 == kIns then (kIns, v) else kv) k =
      hasKey m k := by
  induction m with
  | nil => rfl
  | cons x xs ih =>
    simp only [hasKey, List.map_cons, List.any_cons] at ih ⊢
    have hx : ((if x.1 == kIns then (kIns, v) else x).1 == k) = (x.1 == k) := by
      by_cases h : x.1 == kIns
      · have : x.1 = kIns := by simpa using h
        rw [if_pos h, ← this]
      · rw [if_neg h]
    rw [hx, ih]

theorem hasKey_dictInsert (m : List (String × String)) (kIns v k : String) :
    hasKey (dictInsert m kIns v) k = true ↔ hasKey m k = true ∨ kIns = k := by
  rw [dictInsert]
  by_cases hany : (m.any fun kv => kv.1 == kIns) = true
  · rw [if_pos hany, hasKey_map_replace]
    constructor
    · exact Or.inl
    · rintro (h | rfl)
      · exact h
      · exact hany
  · rw [if_neg hany]
    simp [hasKey]

theorem hasKey_codeUrlMap_aux (base : String) :
    ∀ (people : List Person) (m : List (String × String)) (k : String),
    hasKey (people.foldl (fun acc p => dictInsert acc p.displayCode (base ++ p.pv)) m)
        k = true ↔
      hasKey m k = true ∨ ∃ p ∈ people, p.displayCode = k := by
  intro people
  induction people with
  | nil =>
    intro m k
    simp [List.foldl_nil]
  | cons p ps ih =>
    intro m k
    rw [List.foldl_cons, ih, hasKey_dictInsert]
    simp only [List.mem_cons]
    constructor
    · rintro ((h | h) | ⟨q, hq, hqk⟩)
      · exact Or.inl h
      · exact Or.inr ⟨p, Or.inl rfl, h⟩
      · exact Or.inr ⟨q, Or.inr hq, hqk⟩
    · rintro (h | ⟨q, hq | hq, hqk⟩)
      · exact Or.inl (Or.inl h)
      · subst hq
        exact Or.inl (Or.inr hqk)
      · exact Or.inr ⟨q, hq, hqk⟩

/-- C8: empty-token exclusion.  A raw staff entry materialises into a
`Person` record iff its `pv` field is non-empty after stripping
whitespace, and a raw student entry likewise after falling back through
the `pv` / `photoUrl` / `photo` aliases; the stored token is the
stripped value; the returned batches are exactly the filtered records;
a display code appears in the code→URL map iff some retained person
carries it; and the spec's example staff entry yields the expected
trimmed record. -/
theorem claim_C8_empty_token_exclusion :
    (∀ e : RawStaff, (toStaffRecord e).isSome = true ↔ pyStrip (e.pv.getD "") ≠ "") ∧
    (∀ e : RawStaff, (toStaffRecord e).map Person.pv =
      if pyStrip (e.pv.getD "") ≠ "" then some (pyStrip (e.pv.getD "")) else none) ∧
    (∀ (raw : List RawStaff) (p : Person),
      p ∈ staff_with_photos raw ↔ ∃ e ∈ raw, toStaffRecord e = some p) ∧
    (∀ e : RawStudent, (toStudentRecord e).isSome = true ↔ pyStrip (studentPv e) ≠ "") ∧
    (∀ e : RawStudent, (toStudentRecord e).map Person.pv =
      if pyStrip (studentPv e) ≠ "" then some (pyStrip (studentPv e)) else none) ∧
    (∀ (raw : List RawStudent) (p : Person),
      p ∈ students_with_photos raw ↔ ∃ e ∈ raw, toStudentRecord e = some p) ∧
    (∀ (base : String) (people : List Person) (k : String),
      hasKey (codeUrlMap base people) k = true ↔ ∃ p ∈ people, p.displayCode = k) ∧
    toStaffRecord ⟨some "Jane Doe", some "JDOE", some " tok123_2501010101AM "⟩ =
      some ⟨"Jane Doe", "JDOE", "tok123_2501010101AM"⟩ := by
  refine ⟨?_, ?_, ?_, ?_, ?_, ?_, ?_, by decide⟩
  · intro e
    by_cases h : pyStrip (e.pv.getD "") = ""
    · simp [toStaffRecord, h]
    · have hpv : e.pv.getD "" ≠ "" := by
        intro h0
        rw [h0, pyStrip_empty] at h
        exact h rfl
      simp [toStaffRecord, h, hpv]
  · intro e
    by_cases h : pyStrip (e.pv.getD "") = ""
    · simp [toStaffRecord, h]
    · have hpv : e.pv.getD "" ≠ "" := by
        intro h0
        rw [h0, pyStrip_empty] at h
        exact h rfl
      simp [toStaffRecord, h, hpv]
  · intro raw p
    rw [staff_with_photos, List.mem_filterMap]
  · intro e
    by_cases h : pyStrip (studentPv e) = ""
    · simp [toStudentRecord, h]
    · have hpv : studentPv e ≠ "" := by
        intro h0
        rw [h0, pyStrip_empty] at h
        exact h rfl
      simp [toStudentRecord, h, hpv]
  · intro e
    by_cases h : pyStrip (studentPv e) = ""
    · simp [toStudentRecord, h]
    · have hpv : studentPv e ≠ "" := by
        intro h0
        rw [h0, pyStrip_empty] at h
        exact h rfl
      simp [toStudentRecord, h, hpv]
  · intro raw p
    rw [students_with_photos, List.mem_filterMap]
  · intro base people k
    rw [codeUrlMap, hasKey_codeUrlMap_aux]
    simp [hasKey]

/-- C10: stats partition invariant.  Every `DownloadStats` value
returned by `download_photos` satisfies
`downloaded + updated + skipped + failed = total_processed`, since each
person of the batch increments exactly one of the four counters; the
same partition holds for the single-photo stats of
`_process_single_photo`. -/
theorem claim_C10_stats_partition :
    (∀ (fetchOk : String → Bool) (files : List String) (people : List Person)
      (limit : Option Nat),
      (download_photos fetchOk files people limit).stats.downloaded +
        (download_photos fetchOk files people limit).stats.updated +
        (download_photos fetchOk files people limit).stats.skipped +
        (download_photos fetchOk files people limit).stats.failed =
        (download_photos fetchOk files people limit).stats.total_processed) ∧
    (∀ b : Bool,
      (process_single_photo_stats b).downloaded +
        (process_single_photo_stats b).updated +
        (process_single_photo_stats b).skipped +
        (process_single_photo_stats b).failed =
        (process_single_photo_stats b).total_processed) := by
  constructor
  · intro fetchOk files people limit
    exact runBatch_partition fetchOk (applyLimit limit people) files
  · intro b
    cases b <;> rfl

end CompassPhoto
